import Mathlib

/-!
Verification of the GeoJSON-to-Postgres ingestion pipeline
(repository `postgres-connect-rust`).

The development shallowly embeds the core functions of
`src/write/utils.rs` and `src/write/queries.rs`:

* `geometry_to_wkt`   (utils.rs, lines 105-174) — geometry encoder;
* `escape_csv_field`  (utils.rs, lines 277-285) — CSV field escaper;
* the per-feature row encoding loop of `process_file`
  (utils.rs, lines 247-268) — row encoder;
* `create_geo_table`  (queries.rs, lines 235-249) — schema manager;
* the per-file job spawned by `insert_geojson`
  (queries.rs, lines 295-327) — concurrent file ingester.

Conventions of the embedding:

* Rust `f64` coordinates are an abstract type `α` together with a
  formatter `fmt : α → String` standing for the Rust `Display`
  instance that the code calls through `format!`.
* Rust panics (unchecked indexing `p[0]`, `p[1]`, and `.expect`)
  are modelled as explicit error values, kept distinct from the
  `anyhow::bail!` error that the code returns deliberately.
* Rust `&str` values manipulated character by character
  (`escape_csv_field`) are modelled as `List Char`; strings that are
  only concatenated are modelled as `String`.
-/

/-! ### Geometry data model (the `geojson` crate `Value` enum)

A position is a list of numeric components (the crate uses
`Vec<f64>`); the six planar variants plus `GeometryCollection`,
which is the only remaining variant of the crate enum and is the
case hit by the `_` arm of the Rust `match`. -/

inductive GeoValue (α : Type) where
  | point (c : List α)
  | multiPoint (coords : List (List α))
  | lineString (coords : List (List α))
  | multiLineString (lines : List (List (List α)))
  | polygon (rings : List (List (List α)))
  | multiPolygon (polys : List (List (List (List α))))
  | geometryCollection (geoms : List (GeoValue α))

/-- Errors observable from `geometry_to_wkt`: the explicit
`anyhow::bail!` (carrying its message), and the panic raised by the
unchecked indexing `p[0]` / `p[1]` when a position has fewer than two
components. -/
inductive WktErr where
  | panicOutOfBounds
  | bail (msg : String)
deriving DecidableEq

/-- Rust `iter().map(f).collect::<Vec<_>>()` where `f` may panic or
bail: the first failure aborts the whole traversal. -/
def mapE {β γ ε : Type} (f : β → Except ε γ) : List β → Except ε (List γ)
  | [] => Except.ok []
  | x :: xs =>
    match f x with
    | Except.error e => Except.error e
    | Except.ok y =>
      match mapE f xs with
      | Except.error e => Except.error e
      | Except.ok ys => Except.ok (y :: ys)

/-- `format!("{} {}", p[0], p[1])`: the first two components of a
position, space separated; indexing a shorter vector panics. -/
def wktCoord {α : Type} (fmt : α → String) (p : List α) : Except WktErr String :=
  match p with
  | x :: y :: _ => Except.ok (fmt x ++ " " ++ fmt y)
  | _ => Except.error WktErr.panicOutOfBounds

/-- `.join(", ")` on the collected parts. -/
def joinWkt (parts : List String) : String := String.intercalate ", " parts

/-- The per-point closure of the `MultiPoint` arm:
`format!("({} {})", p[0], p[1])`. -/
def pointPart {α : Type} (fmt : α → String) (p : List α) : Except WktErr String :=
  (wktCoord fmt p).map (fun s => "(" ++ s ++ ")")

/-- The coordinate-list body shared by the `LineString` arm and every
ring: `line.into_iter().map(coord).join(", ")`. -/
def lineBody {α : Type} (fmt : α → String) (line : List (List α)) : Except WktErr String :=
  (mapE (wktCoord fmt) line).map joinWkt

/-- The per-ring closure of the `MultiLineString` / `Polygon` arms:
`format!("({})", body)`. -/
def ringPart {α : Type} (fmt : α → String) (ring : List (List α)) : Except WktErr String :=
  (lineBody fmt ring).map (fun s => "(" ++ s ++ ")")

/-- The per-polygon closure of the `MultiPolygon` arm: rings joined
and wrapped in one more parenthesis level. -/
def polyPart {α : Type} (fmt : α → String) (poly : List (List (List α))) :
    Except WktErr String :=
  (mapE (ringPart fmt) poly).map (fun rs => "(" ++ joinWkt rs ++ ")")

/-- `geometry_to_wkt` (utils.rs, lines 105-174), arm by arm.  The
`_ => anyhow::bail!("Unsupported geometry type")` arm of the source
covers exactly the `GeometryCollection` variant. -/
def geometry_to_wkt {α : Type} (fmt : α → String) : GeoValue α → Except WktErr String
  | GeoValue.point c =>
      (wktCoord fmt c).map (fun s => "POINT(" ++ s ++ ")")
  | GeoValue.multiPoint coords =>
      (mapE (pointPart fmt) coords).map (fun ps => "MULTIPOINT(" ++ joinWkt ps ++ ")")
  | GeoValue.lineString coords =>
      (lineBody fmt coords).map (fun b => "LINESTRING(" ++ b ++ ")")
  | GeoValue.multiLineString lines =>
      (mapE (ringPart fmt) lines).map (fun ps => "MULTILINESTRING(" ++ joinWkt ps ++ ")")
  | GeoValue.polygon rings =>
      (mapE (ringPart fmt) rings).map (fun ps => "POLYGON(" ++ joinWkt ps ++ ")")
  | GeoValue.multiPolygon polys =>
      (mapE (polyPart fmt) polys).map (fun ps => "MULTIPOLYGON(" ++ joinWkt ps ++ ")")
  | GeoValue.geometryCollection _ =>
      Except.error (WktErr.bail "Unsupported geometry type")

/-! ### Spec-side WKT shapes

These definitions follow the wording of the spec (section 4.1): the
shape `POINT(x y)`, per-point parentheses for `MULTIPOINT`, and one
parenthesis level per structural level, coordinates `x` then `y`,
components beyond the first two dropped.  They are compared with
`geometry_to_wkt` in the refinement theorem for claim C2. -/

def specCoord {α : Type} (fmt : α → String) (p : List α) : String :=
  match p with
  | x :: y :: _ => fmt x ++ " " ++ fmt y
  | _ => ""

def specRing {α : Type} (fmt : α → String) (ring : List (List α)) : String :=
  "(" ++ joinWkt (ring.map (specCoord fmt)) ++ ")"

def specPoly {α : Type} (fmt : α → String) (poly : List (List (List α))) : String :=
  "(" ++ joinWkt (poly.map (specRing fmt)) ++ ")"

def specWkt {α : Type} (fmt : α → String) : GeoValue α → String
  | GeoValue.point c => "POINT(" ++ specCoord fmt c ++ ")"
  | GeoValue.multiPoint coords =>
      "MULTIPOINT(" ++ joinWkt (coords.map (fun p => "(" ++ specCoord fmt p ++ ")")) ++ ")"
  | GeoValue.lineString coords =>
      "LINESTRING(" ++ joinWkt (coords.map (specCoord fmt)) ++ ")"
  | GeoValue.multiLineString lines =>
      "MULTILINESTRING(" ++ joinWkt (lines.map (specRing fmt)) ++ ")"
  | GeoValue.polygon rings =>
      "POLYGON(" ++ joinWkt (rings.map (specRing fmt)) ++ ")"
  | GeoValue.multiPolygon polys =>
      "MULTIPOLYGON(" ++ joinWkt (polys.map (specPoly fmt)) ++ ")"
  | GeoValue.geometryCollection _ => ""

/-- All positions reachable by the encoder's indexing, per variant. -/
def positionsOf {α : Type} : GeoValue α → List (List α)
  | GeoValue.point c => [c]
  | GeoValue.multiPoint coords => coords
  | GeoValue.lineString coords => coords
  | GeoValue.multiLineString lines => lines.flatten
  | GeoValue.polygon rings => rings.flatten
  | GeoValue.multiPolygon polys => (polys.map List.flatten).flatten
  | GeoValue.geometryCollection _ => []

/-- Every reachable position has at least the two components the
encoder indexes. -/
def ValidG {α : Type} (g : GeoValue α) : Prop :=
  ∀ p ∈ positionsOf g, 2 ≤ p.length

instance {α : Type} (g : GeoValue α) : Decidable (ValidG g) :=
  List.decidableBAll _ _

/-- The six variants the encoder supports (everything except the
`GeometryCollection` catch-all). -/
def isSupported {α : Type} : GeoValue α → Bool
  | GeoValue.geometryCollection _ => false
  | _ => true

/-! ### CSV escaping (`escape_csv_field`, utils.rs lines 277-285)

The Rust `&str` is modelled as its character list. -/

/-- Rust `str::contains(char)`: whether any character of the field
equals `c`. -/
def hasChar (field : List Char) (c : Char) : Bool :=
  match field with
  | [] => false
  | a :: rest => a = c || hasChar rest c

/-- `field.replace('\"', "\"\"")`: every double quote doubled. -/
def replaceQuote : List Char → List Char
  | [] => []
  | c :: rest =>
    if c = '\"' then '\"' :: '\"' :: replaceQuote rest
    else c :: replaceQuote rest

/-- `escape_csv_field` (utils.rs, lines 277-285): wrap in double
quotes with internal quotes doubled when the field contains a comma,
a double quote or a newline; otherwise return the field verbatim. -/
def escape_csv_field (field : List Char) : List Char :=
  if hasChar field ',' || hasChar field '\"' || hasChar field '\n' then
    '\"' :: (replaceQuote field ++ [ '\"' ])
  else field

/-- Reference parser for one quoted CSV field body (after the opening
quote): a doubled quote is one literal quote, a lone quote closes the
field.  Modelled from the spec: the "standard CSV parse" /
"reference delimited-format parser" the escaping rule is required to
round-trip through; no such parser exists in the source. -/
def readQuoted : List Char → Option (List Char × List Char)
  | [] => none
  | c :: rest =>
    if c = '\"' then
      match rest with
      | c2 :: rest2 =>
        if c2 = '\"' then (readQuoted rest2).map (fun fr => ('\"' :: fr.1, fr.2))
        else some ([], rest)
      | [] => some ([], rest)
    else
      (readQuoted rest).map (fun fr => (c :: fr.1, fr.2))

/-- Reference parser for one CSV field: a field starting with a double
quote is parsed as a quoted field, anything else is read verbatim up
to the next comma or newline.  Modelled from the spec, as for
`readQuoted`. -/
def parseField (s : List Char) : Option (List Char × List Char) :=
  if s.head? = some '\"' then readQuoted s.tail
  else
    some (s.takeWhile (fun c => c != ',' && c != '\n'),
          s.dropWhile (fun c => c != ',' && c != '\n'))

/-! ### Row encoding (the loop body of `process_file`, utils.rs
lines 247-268)

The feature id is the `geojson::feature::Id` enum (a string or a
`serde_json` number); the number's `to_string()` is the abstract
formatter `numStr`.  Properties and their `serde_json::to_string`
serialization are abstracted as `π` and `propStr`. -/

inductive FeatId (ν : Type) where
  | str (s : String)
  | num (n : ν)

structure Feature (α ν π : Type) where
  id : Option (FeatId ν)
  properties : π
  geometry : Option (GeoValue α)

/-- Failures of the loop body, all of which are Rust panics: the
unchecked-indexing panic propagated out of `geometry_to_wkt`, and an
`.expect` panic carrying its context message and the displayed
cause. -/
inductive RowPanic where
  | outOfBounds
  | expectFail (context : String) (cause : String)
deriving DecidableEq

/-- The `name` resolution of the loop (utils.rs, lines 248-252):
string id as is, numeric id via `to_string()`, absent id
`format!("unknown_{}", idx)` with the zero-based feature index. -/
def encodeName {ν : Type} (numStr : ν → String) (idx : Nat) : Option (FeatId ν) → String
  | some (FeatId.str s) => s
  | some (FeatId.num n) => numStr n
  | none => "unknown_" ++ Nat.repr idx

/-- The `geometry` resolution of the loop (utils.rs, lines 255-258):
present geometry converted with
`geometry_to_wkt(geom).expect("❌ Failed to convert geometry to WKT")`,
absent geometry the literal string `NULL`. -/
def geomField {α : Type} (fmt : α → String) : Option (GeoValue α) → Except RowPanic String
  | some geom =>
    match geometry_to_wkt fmt geom with
    | Except.ok s => Except.ok s
    | Except.error WktErr.panicOutOfBounds => Except.error RowPanic.outOfBounds
    | Except.error (WktErr.bail msg) =>
        Except.error (RowPanic.expectFail "❌ Failed to convert geometry to WKT" msg)
  | none => Except.ok "NULL"

/-- `escape_csv_field` lifted back to `String` for the CSV line. -/
def escapeS (s : String) : String := String.mk (escape_csv_field s.data)

/-- One iteration of the feature loop of `process_file` (utils.rs,
lines 247-268): resolve name, serialize properties, resolve geometry,
and build `format!("{},{},{}\n", ...)` over the escaped fields.
`propStr` stands for `serde_json::to_string(&feature.properties)`
(whose own `.expect` failure case is not modelled: on `serde_json`
values that serialization is total). -/
def encodeRow {α ν π : Type} (fmt : α → String) (numStr : ν → String)
    (propStr : π → String) (idx : Nat) (f : Feature α ν π) : Except RowPanic String :=
  let name := encodeName numStr idx f.id
  let properties := propStr f.properties
  (geomField fmt f.geometry).map (fun geometry =>
    escapeS name ++ "," ++ escapeS properties ++ "," ++ escapeS geometry ++ "\n")

/-! ### The schema manager and the concurrent ingester
(`create_geo_table` and `insert_geojson`, queries.rs) -/

/-- `serde_json::Value`, as parsed by
`GeoJSONFile::process_geojson_file` (numbers simplified to `Int`;
no claim depends on numeric payloads). -/
inductive JValue where
  | null
  | bool (b : Bool)
  | num (n : Int)
  | str (s : String)
  | arr (items : List JValue)
  | obj (fields : List (String × JValue))

/-- The `GeoJSONFile` struct (utils.rs, lines 23-26): the file stem
and the whole parsed JSON document. -/
structure GeoJSONFileL where
  file_name : String
  json_data : JValue

/-- The observable steps of the per-file task spawned by
`insert_geojson` (queries.rs, lines 301-326). -/
inductive JobOp where
  | acquireConn
  | beginTransaction
  | executeInsert (sql : String) (rowName : String) (data : JValue)
  | commitTransaction

/-- The per-file job of `insert_geojson` (queries.rs, lines 301-326):
get a pooled connection, start a transaction, execute a single
parameterized INSERT of the file stem and the whole JSON document,
and commit. -/
def insertJobTrace (tableName : String) (g : GeoJSONFileL) : List JobOp :=
  [ JobOp.acquireConn,
    JobOp.beginTransaction,
    JobOp.executeInsert ("INSERT INTO " ++ tableName ++ " (name, data) VALUES ($1, $2)")
      g.file_name g.json_data,
    JobOp.commitTransaction ]

/-- The rows a trace hands to the destination store. -/
def insertedRows (trace : List JobOp) : List (String × JValue) :=
  trace.filterMap (fun op =>
    match op with
    | JobOp.executeInsert _ n d => some (n, d)
    | _ => none)

/-- The number of features of a parsed GeoJSON document (the length
of its top-level `features` array).  Measuring function for claim C1,
following the spec's FeatureCollection data model. -/
def featureCount : JValue → Nat
  | JValue.obj fields =>
    match fields.lookup "features" with
    | some (JValue.arr items) => items.length
    | _ => 0
  | _ => 0

/-- A parsed GeoJSON document that is a FeatureCollection with two
features: concrete input for claim C1. -/
def twoFeatureDoc : JValue :=
  JValue.obj [("type", JValue.str "FeatureCollection"),
              ("features", JValue.arr [JValue.obj [], JValue.obj []])]

/-- One column of the destination table. -/
structure ColumnSpec where
  colName : String
  sqlType : String
  modifiers : String
deriving DecidableEq

/-- The columns of the CREATE TABLE statement issued by
`create_geo_table` (queries.rs, lines 238-247). -/
def create_geo_table_columns : List ColumnSpec :=
  [ ColumnSpec.mk "id" "UUID" "PRIMARY KEY DEFAULT gen_random_uuid()",
    ColumnSpec.mk "name" "VARCHAR(512)" "NOT NULL UNIQUE",
    ColumnSpec.mk "data" "JSONB" "NOT NULL",
    ColumnSpec.mk "created_at" "TIMESTAMPTZ" "DEFAULT NOW()" ]

/-- The secondary index of the same batch:
`CREATE INDEX ..._data_idx ON ... USING GIN (data)` — method and
indexed column. -/
def create_geo_table_index : String × String := ("GIN", "data")

/-- Batch-level steps of `insert_geojson` (queries.rs, lines
266-343): table creation, then the per-file jobs. -/
inductive BatchOp where
  | createTable (tableName : String) (cols : List ColumnSpec)
      (indexMethod indexColumn : String)
  | jobOp (op : JobOp)

/-- `insert_geojson` awaits `create_geo_table` before spawning any
per-file task, so in every interleaving the creation precedes all job
operations; the job operations themselves are listed here in one
arbitrary linearization (the spawned tasks run concurrently). -/
def insert_geojson_trace (tableName : String) (files : List GeoJSONFileL) : List BatchOp :=
  BatchOp.createTable tableName create_geo_table_columns "GIN" "data" ::
    ((files.map (insertJobTrace tableName)).flatten.map BatchOp.jobOp)

/-- DDL outcomes distinguished by claim C7. -/
inductive DdlError where
  | alreadyExists (tableName : String)
  | otherFailure (msg : String)
deriving DecidableEq

/-- Modelled from the spec: the external query-execution collaborator
(section 6, `execute(sql)`) applied to the DDL batch of
`create_geo_table` (queries.rs, lines 235-249).  The statement is a
plain `CREATE TABLE` (no `IF NOT EXISTS`), which the store rejects
with an already-exists error when the table is present; on success the
table is added to the catalog, represented as the list of existing
table names. -/
def create_geo_table (existing : List String) (tableName : String) :
    Except DdlError (List String) :=
  if existing.contains tableName then Except.error (DdlError.alreadyExists tableName)
  else Except.ok (tableName :: existing)

/-- The table-creation step of `insert_geojson` (queries.rs, line
292): `self.create_geo_table(&client, table_name).await?` — the `?`
operator propagates every error of `create_geo_table` unchanged,
aborting the batch before any job is spawned. -/
def insert_geojson_setup (existing : List String) (tableName : String) :
    Except DdlError (List String) :=
  match create_geo_table existing tableName with
  | Except.error e => Except.error e
  | Except.ok tables => Except.ok tables

/-- Substring test used to state that an error message does or does
not name a geometry variant. -/
def listStartsWith : List Char → List Char → Bool
  | [], _ => true
  | _ :: _, [] => false
  | a :: as, b :: bs => a = b && listStartsWith as bs

def containsSub (needle hay : List Char) : Bool :=
  match hay with
  | [] => needle.isEmpty
  | _ :: t => listStartsWith needle hay || containsSub needle t

/-! ### Helper lemmas: traversal of `mapE` -/

lemma mapE_ok {β γ ε : Type} {f : β → Except ε γ} {g : β → γ} :
    ∀ xs : List β, (∀ x ∈ xs, f x = Except.ok (g x)) →
      mapE f xs = Except.ok (xs.map g) := by
  intro xs h
  induction xs with
  | nil => rfl
  | cons a t ih =>
    have ha : f a = Except.ok (g a) := h a (by simp)
    have ht := ih (fun x hx => h x (by simp [hx]))
    simp [mapE, ha, ht]

lemma mapE_shape {β γ ε : Type} {f : β → Except ε γ} {e₀ : ε}
    (hf : ∀ x, (∃ y, f x = Except.ok y) ∨ f x = Except.error e₀) :
    ∀ xs : List β, (∃ ys, mapE f xs = Except.ok ys) ∨ mapE f xs = Except.error e₀ := by
  intro xs
  induction xs with
  | nil => exact Or.inl ⟨[], rfl⟩
  | cons a t ih =>
    rcases hf a with ⟨y, hy⟩ | hy
    · rcases ih with ⟨ys, hys⟩ | hys
      · exact Or.inl ⟨y :: ys, by simp [mapE, hy, hys]⟩
      · exact Or.inr (by simp [mapE, hy, hys])
    · exact Or.inr (by simp [mapE, hy])

lemma mapE_err {β γ ε : Type} {f : β → Except ε γ} {e₀ : ε}
    (hf : ∀ x, (∃ y, f x = Except.ok y) ∨ f x = Except.error e₀) :
    ∀ xs : List β, (∃ x ∈ xs, f x = Except.error e₀) →
      mapE f xs = Except.error e₀ := by
  intro xs hx
  induction xs with
  | nil => simp at hx
  | cons a t ih =>
    rcases hx with ⟨x, hmem, hxe⟩
    rcases List.mem_cons.mp hmem with rfl | hmt
    · simp [mapE, hxe]
    · rcases hf a with ⟨y, hy⟩ | hy
      · have ht := ih ⟨x, hmt, hxe⟩
        simp [mapE, hy, ht]
      · simp [mapE, hy]

/-! ### Helper lemmas: the coordinate, point, line, ring and polygon
levels of the encoder -/

lemma wktCoord_ok {α : Type} (fmt : α → String) :
    ∀ {p : List α}, 2 ≤ p.length → wktCoord fmt p = Except.ok (specCoord fmt p) := by
  intro p h
  match p with
  | _ :: _ :: _ => rfl
  | [] => simp at h
  | [_] => simp at h

lemma wktCoord_err {α : Type} (fmt : α → String) :
    ∀ {p : List α}, p.length < 2 →
      wktCoord fmt p = Except.error WktErr.panicOutOfBounds := by
  intro p h
  match p with
  | [] => rfl
  | [_] => rfl
  | x :: y :: rest => simp only [List.length_cons] at h; omega

lemma wktCoord_shape {α : Type} (fmt : α → String) (p : List α) :
    (∃ s, wktCoord fmt p = Except.ok s) ∨
      wktCoord fmt p = Except.error WktErr.panicOutOfBounds := by
  match p with
  | [] => exact Or.inr rfl
  | [_] => exact Or.inr rfl
  | _ :: _ :: _ => exact Or.inl ⟨_, rfl⟩

lemma pointPart_ok {α : Type} (fmt : α → String) {p : List α} (h : 2 ≤ p.length) :
    pointPart fmt p = Except.ok ("(" ++ specCoord fmt p ++ ")") := by
  simp [pointPart, wktCoord_ok fmt h, Except.map]

lemma pointPart_err {α : Type} (fmt : α → String) {p : List α} (h : p.length < 2) :
    pointPart fmt p = Except.error WktErr.panicOutOfBounds := by
  simp [pointPart, wktCoord_err fmt h, Except.map]

lemma pointPart_shape {α : Type} (fmt : α → String) (p : List α) :
    (∃ s, pointPart fmt p = Except.ok s) ∨
      pointPart fmt p = Except.error WktErr.panicOutOfBounds := by
  rcases wktCoord_shape fmt p with ⟨s, hs⟩ | hs
  · exact Or.inl ⟨"(" ++ s ++ ")", by simp [pointPart, hs, Except.map]⟩
  · exact Or.inr (by simp [pointPart, hs, Except.map])

lemma lineBody_ok {α : Type} (fmt : α → String) (line : List (List α))
    (h : ∀ p ∈ line, 2 ≤ p.length) :
    lineBody fmt line = Except.ok (joinWkt (line.map (specCoord fmt))) := by
  have hm := mapE_ok (f := wktCoord fmt) (g := specCoord fmt) line
    (fun p hp => wktCoord_ok fmt (h p hp))
  simp [lineBody, hm, Except.map]

lemma lineBody_err {α : Type} (fmt : α → String) (line : List (List α))
    (h : ∃ p ∈ line, p.length < 2) :
    lineBody fmt line = Except.error WktErr.panicOutOfBounds := by
  obtain ⟨p, hp, hl⟩ := h
  have hm := mapE_err (fun q => wktCoord_shape fmt q) line ⟨p, hp, wktCoord_err fmt hl⟩
  simp [lineBody, hm, Except.map]

lemma lineBody_shape {α : Type} (fmt : α → String) (line : List (List α)) :
    (∃ s, lineBody fmt line = Except.ok s) ∨
      lineBody fmt line = Except.error WktErr.panicOutOfBounds := by
  rcases mapE_shape (fun q => wktCoord_shape fmt q) line with ⟨ys, h⟩ | h
  · exact Or.inl ⟨joinWkt ys, by simp [lineBody, h, Except.map]⟩
  · exact Or.inr (by simp [lineBody, h, Except.map])

lemma ringPart_ok {α : Type} (fmt : α → String) (ring : List (List α))
    (h : ∀ p ∈ ring, 2 ≤ p.length) :
    ringPart fmt ring = Except.ok (specRing fmt ring) := by
  simp [ringPart, lineBody_ok fmt ring h, Except.map, specRing]

lemma ringPart_err {α : Type} (fmt : α → String) (ring : List (List α))
    (h : ∃ p ∈ ring, p.length < 2) :
    ringPart fmt ring = Except.error WktErr.panicOutOfBounds := by
  simp [ringPart, lineBody_err fmt ring h, Except.map]

lemma ringPart_shape {α : Type} (fmt : α → String) (ring : List (List α)) :
    (∃ s, ringPart fmt ring = Except.ok s) ∨
      ringPart fmt ring = Except.error WktErr.panicOutOfBounds := by
  rcases lineBody_shape fmt ring with ⟨s, h⟩ | h
  · exact Or.inl ⟨"(" ++ s ++ ")", by simp [ringPart, h, Except.map]⟩
  · exact Or.inr (by simp [ringPart, h, Except.map])

lemma polyPart_ok {α : Type} (fmt : α → String) (poly : List (List (List α)))
    (h : ∀ p ∈ poly.flatten, 2 ≤ p.length) :
    polyPart fmt poly = Except.ok (specPoly fmt poly) := by
  have hm := mapE_ok (f := ringPart fmt) (g := specRing fmt) poly
    (fun ring hr => ringPart_ok fmt ring
      (fun p hp => h p (List.mem_flatten.mpr ⟨ring, hr, hp⟩)))
  simp [polyPart, hm, Except.map, specPoly]

lemma polyPart_err {α : Type} (fmt : α → String) (poly : List (List (List α)))
    (h : ∃ p ∈ poly.flatten, p.length < 2) :
    polyPart fmt poly = Except.error WktErr.panicOutOfBounds := by
  obtain ⟨p, hp, hl⟩ := h
  obtain ⟨ring, hr, hpr⟩ := List.mem_flatten.mp hp
  have hm := mapE_err (fun r => ringPart_shape fmt r) poly
    ⟨ring, hr, ringPart_err fmt ring ⟨p, hpr, hl⟩⟩
  simp [polyPart, hm, Except.map]

lemma polyPart_shape {α : Type} (fmt : α → String) (poly : List (List (List α))) :
    (∃ s, polyPart fmt poly = Except.ok s) ∨
      polyPart fmt poly = Except.error WktErr.panicOutOfBounds := by
  rcases mapE_shape (fun r => ringPart_shape fmt r) poly with ⟨ys, h⟩ | h
  · exact Or.inl ⟨"(" ++ joinWkt ys ++ ")", by simp [polyPart, h, Except.map]⟩
  · exact Or.inr (by simp [polyPart, h, Except.map])

/-! ### The two directions of the encoder's totality analysis -/

lemma wkt_ok_of_valid {α : Type} (fmt : α → String) (g : GeoValue α)
    (hs : isSupported g = true) (hv : ValidG g) :
    geometry_to_wkt fmt g = Except.ok (specWkt fmt g) := by
  cases g with
  | point c =>
    have hc : 2 ≤ c.length := hv c (by simp [positionsOf])
    simp [geometry_to_wkt, specWkt, wktCoord_ok fmt hc, Except.map]
  | multiPoint coords =>
    have hm := mapE_ok (f := pointPart fmt)
      (g := fun p => "(" ++ specCoord fmt p ++ ")") coords
      (fun p hp => pointPart_ok fmt (hv p hp))
    simp [geometry_to_wkt, specWkt, hm, Except.map]
  | lineString coords =>
    have hb := lineBody_ok fmt coords (fun p hp => hv p hp)
    simp [geometry_to_wkt, specWkt, hb, Except.map]
  | multiLineString lines =>
    have hm := mapE_ok (f := ringPart fmt) (g := specRing fmt) lines
      (fun line hl => ringPart_ok fmt line
        (fun p hp => hv p (List.mem_flatten.mpr ⟨line, hl, hp⟩)))
    simp [geometry_to_wkt, specWkt, hm, Except.map]
  | polygon rings =>
    have hm := mapE_ok (f := ringPart fmt) (g := specRing fmt) rings
      (fun ring hr => ringPart_ok fmt ring
        (fun p hp => hv p (List.mem_flatten.mpr ⟨ring, hr, hp⟩)))
    simp [geometry_to_wkt, specWkt, hm, Except.map]
  | multiPolygon polys =>
    have hm := mapE_ok (f := polyPart fmt) (g := specPoly fmt) polys
      (fun poly hpo => polyPart_ok fmt poly
        (fun p hp => hv p (List.mem_flatten.mpr
          ⟨poly.flatten, List.mem_map_of_mem List.flatten hpo, hp⟩)))
    simp [geometry_to_wkt, specWkt, hm, Except.map]
  | geometryCollection geoms => simp [isSupported] at hs

lemma wkt_panic_of_invalid {α : Type} (fmt : α → String) (g : GeoValue α)
    (hs : isSupported g = true) (hnv : ¬ ValidG g) :
    geometry_to_wkt fmt g = Except.error WktErr.panicOutOfBounds := by
  have hex : ∃ p ∈ positionsOf g, p.length < 2 := by
    rw [ValidG] at hnv
    push_neg at hnv
    simpa using hnv
  cases g with
  | point c =>
    obtain ⟨p, hp, hl⟩ := hex
    have hpc : p = c := by simpa [positionsOf] using hp
    subst hpc
    simp [geometry_to_wkt, wktCoord_err fmt hl, Except.map]
  | multiPoint coords =>
    obtain ⟨p, hp, hl⟩ := hex
    have hm := mapE_err (fun q => pointPart_shape fmt q) coords
      ⟨p, hp, pointPart_err fmt hl⟩
    simp [geometry_to_wkt, hm, Except.map]
  | lineString coords =>
    have hb := lineBody_err fmt coords hex
    simp [geometry_to_wkt, hb, Except.map]
  | multiLineString lines =>
    obtain ⟨p, hp, hl⟩ := hex
    obtain ⟨line, hline, hpl⟩ := List.mem_flatten.mp hp
    have hm := mapE_err (fun r => ringPart_shape fmt r) lines
      ⟨line, hline, ringPart_err fmt line ⟨p, hpl, hl⟩⟩
    simp [geometry_to_wkt, hm, Except.map]
  | polygon rings =>
    obtain ⟨p, hp, hl⟩ := hex
    obtain ⟨ring, hring, hpr⟩ := List.mem_flatten.mp hp
    have hm := mapE_err (fun r => ringPart_shape fmt r) rings
      ⟨ring, hring, ringPart_err fmt ring ⟨p, hpr, hl⟩⟩
    simp [geometry_to_wkt, hm, Except.map]
  | multiPolygon polys =>
    obtain ⟨p, hp, hl⟩ := hex
    obtain ⟨j, hj, hpj⟩ := List.mem_flatten.mp hp
    obtain ⟨poly, hpoly, rfl⟩ := List.mem_map.mp hj
    have hm := mapE_err (fun q => polyPart_shape fmt q) polys
      ⟨poly, hpoly, polyPart_err fmt poly ⟨p, hpj, hl⟩⟩
    simp [geometry_to_wkt, hm, Except.map]
  | geometryCollection geoms => simp [isSupported] at hs

/-! ### Helper lemmas: CSV escaping and the reference parser -/

lemma hasChar_false_not_mem {field : List Char} {c : Char}
    (h : hasChar field c = false) : c ∉ field := by
  intro hm
  induction field with
  | nil => simp at hm
  | cons a t ih =>
    rw [hasChar] at h
    rcases Bool.or_eq_false_iff.mp h with ⟨h1, h2⟩
    rcases List.mem_cons.mp hm with rfl | ht
    · simp at h1
    · exact ih h2 ht

lemma takeWhile_all {p : Char → Bool} :
    ∀ s : List Char, (∀ c ∈ s, p c = true) → s.takeWhile p = s := by
  intro s h
  induction s with
  | nil => rfl
  | cons a t ih =>
    have ha := h a (by simp)
    simp [List.takeWhile_cons, ha, ih (fun c hc => h c (by simp [hc]))]

lemma dropWhile_all {p : Char → Bool} :
    ∀ s : List Char, (∀ c ∈ s, p c = true) → s.dropWhile p = [] := by
  intro s h
  induction s with
  | nil => rfl
  | cons a t ih =>
    have ha := h a (by simp)
    simp [List.dropWhile_cons, ha, ih (fun c hc => h c (by simp [hc]))]

lemma readQuoted_replaceQuote (field : List Char) :
    readQuoted (replaceQuote field ++ [ '\"' ]) = some (field, []) := by
  induction field with
  | nil => rfl
  | cons c rest ih =>
    by_cases hc : c = '\"'
    · subst hc
      simp [replaceQuote, readQuoted, ih]
    · rcases hsplit : replaceQuote rest ++ [ '\"' ] with _ | ⟨d, ds⟩
      · exact absurd hsplit (by simp)
      · have ih2 : readQuoted (d :: ds) = some (rest, []) := hsplit ▸ ih
        simp [replaceQuote, hc, hsplit, readQuoted, ih2]

lemma parse_escaped (field : List Char) :
    parseField ( '\"' :: (replaceQuote field ++ [ '\"' ])) = some (field, []) := by
  simp [parseField, readQuoted_replaceQuote field]

lemma parse_verbatim (field : List Char)
    (h : (hasChar field ',' || hasChar field '\"' || hasChar field '\n') = false) :
    parseField field = some (field, []) := by
  rcases Bool.or_eq_false_iff.mp h with ⟨h12, hnl⟩
  rcases Bool.or_eq_false_iff.mp h12 with ⟨hcomma, hquote⟩
  have hpred : ∀ c ∈ field, (c != ',' && c != '\n') = true := by
    intro c hcm
    have hc1 : c ≠ ',' := fun e => hasChar_false_not_mem hcomma (e ▸ hcm)
    have hc2 : c ≠ '\n' := fun e => hasChar_false_not_mem hnl (e ▸ hcm)
    simp [hc1, hc2]
  cases field with
  | nil => rfl
  | cons a t =>
    have ha : a ≠ '\"' :=
      fun e => hasChar_false_not_mem hquote (e ▸ List.mem_cons_self a t)
    simp [parseField, ha, takeWhile_all _ hpred, dropWhile_all _ hpred]

lemma escapeS_NULL : escapeS "NULL" = "NULL" := rfl

/-! ### Claim theorems -/

/-- C1 (counterexample): a parsed FeatureCollection with two features
still produces exactly one inserted row per file — the destination
does not receive one row per feature, refuting the claim that the
per-file job streams per-feature records. -/
theorem c1_counterexample :
    featureCount twoFeatureDoc = 2 ∧
    (insertedRows (insertJobTrace "geo_data" (GeoJSONFileL.mk "f" twoFeatureDoc))).length = 1 :=
  ⟨rfl, rfl⟩

/-- C1 (amended): each per-file job of `insert_geojson` acquires one
pooled connection, opens one transaction, executes a single
parameterized INSERT carrying the file stem and the entire parsed
JSON document, and commits — one destination row per file.  The Row
Encoder / bulk-copy path (`process_file`) is not invoked. -/
theorem c1_amended_single_row_per_file (tableName : String) (g : GeoJSONFileL) :
    insertedRows (insertJobTrace tableName g) = [(g.file_name, g.json_data)] ∧
    insertJobTrace tableName g =
      [ JobOp.acquireConn, JobOp.beginTransaction,
        JobOp.executeInsert ("INSERT INTO " ++ tableName ++ " (name, data) VALUES ($1, $2)")
          g.file_name g.json_data,
        JobOp.commitTransaction ] :=
  ⟨rfl, rfl⟩

/-- C2: for every supported geometry variant whose positions all carry
at least two components, `geometry_to_wkt` produces exactly the WKT
shape stated by the spec (`specWkt`): `POINT(x y)`, per-point
parentheses for `MULTIPOINT`, comma-joined coordinate lists with one
parenthesis level per structural level, coordinates `x` then `y`
through the numeric formatter, components beyond the first two
dropped. -/
theorem c2_wkt_matches_spec_shapes {α : Type} (fmt : α → String) (g : GeoValue α)
    (hs : isSupported g = true) (hv : ValidG g) :
    geometry_to_wkt fmt g = Except.ok (specWkt fmt g) :=
  wkt_ok_of_valid fmt g hs hv

/-- C2 (witness): a concrete MultiPolygon whose first coordinate has a
third component, encoded at its spec shape. -/
theorem c2_witness :
    geometry_to_wkt Nat.repr (GeoValue.multiPolygon [[[[1, 2, 9], [3, 4]]]]) =
      Except.ok "MULTIPOLYGON(((1 2, 3 4)))" :=
  (c2_wkt_matches_spec_shapes Nat.repr (GeoValue.multiPolygon [[[[1, 2, 9], [3, 4]]]])
    (by decide) (by decide)).trans rfl

/-- C3 (counterexample): on a GeometryCollection the encoder's error
message is the fixed string "Unsupported geometry type"; it does not
name the unsupported variant (the variant name does not occur in the
message), refuting the claim that the error names the variant. -/
theorem c3_counterexample :
    geometry_to_wkt Nat.repr (GeoValue.geometryCollection ([] : List (GeoValue Nat))) =
      Except.error (WktErr.bail "Unsupported geometry type") ∧
    containsSub "GeometryCollection".data "Unsupported geometry type".data = false :=
  ⟨rfl, by decide⟩

/-- C3 (amended): on any geometry outside the six supported variants
(the `GeometryCollection` case) the encoder always returns the error
with the fixed message "Unsupported geometry type" — never a
(possibly malformed) WKT string — but the message does not name the
variant. -/
theorem c3_amended_fixed_error_message {α : Type} (fmt : α → String) (gs : List (GeoValue α)) :
    geometry_to_wkt fmt (GeoValue.geometryCollection gs) =
      Except.error (WktErr.bail "Unsupported geometry type") :=
  rfl

/-- C4: the escaper wraps a field in double quotes with internal
quotes doubled exactly when the field contains a comma, double quote
or newline, emits it verbatim otherwise, and every field round-trips
through the reference CSV field parser back to the original. -/
theorem c4_escaping_and_roundtrip (field : List Char) :
    parseField (escape_csv_field field) = some (field, []) ∧
    ((hasChar field ',' || hasChar field '\"' || hasChar field '\n') = false →
      escape_csv_field field = field) ∧
    ((hasChar field ',' || hasChar field '\"' || hasChar field '\n') = true →
      escape_csv_field field = '\"' :: (replaceQuote field ++ [ '\"' ])) := by
  cases hb : hasChar field ',' || hasChar field '\"' || hasChar field '\n' with
  | false =>
    have he : escape_csv_field field = field := by
      rw [escape_csv_field, if_neg (by simp [hb])]
    refine ⟨?_, fun _ => he, fun ht => absurd ht (by simp)⟩
    rw [he]
    exact parse_verbatim field hb
  | true =>
    have he : escape_csv_field field = '\"' :: (replaceQuote field ++ [ '\"' ]) := by
      rw [escape_csv_field, if_pos hb]
    refine ⟨?_, fun hf => absurd hf (by simp), fun _ => he⟩
    rw [he]
    exact parse_escaped field

/-- C4 (witness): concrete fields with and without special
characters. -/
theorem c4_witness :
    parseField (escape_csv_field [ 'a', ',', '\"' ]) = some ([ 'a', ',', '\"' ], []) ∧
    escape_csv_field [ 'a', ',', '\"' ] = [ '\"', 'a', ',', '\"', '\"', '\"' ] ∧
    escape_csv_field [ 'a' ] = [ 'a' ] :=
  ⟨(c4_escaping_and_roundtrip [ 'a', ',', '\"' ]).1,
   (c4_escaping_and_roundtrip [ 'a', ',', '\"' ]).2.2 (by decide),
   (c4_escaping_and_roundtrip [ 'a' ]).2.1 (by decide)⟩

/-- C5: name resolution of the row-encoding loop — string id used as
is, numeric id through its decimal formatter, absent id
`unknown_<index>` with the zero-based position — and a feature with
no geometry encodes the unquoted literal `NULL` in the geometry
field, never an error. -/
theorem c5_name_resolution_and_null_geometry {α ν π : Type}
    (fmt : α → String) (numStr : ν → String) (propStr : π → String)
    (idx : Nat) (f : Feature α ν π) (s : String) (n : ν) :
    encodeName numStr idx (some (FeatId.str s)) = s ∧
    encodeName numStr idx (some (FeatId.num n)) = numStr n ∧
    encodeName numStr idx none = "unknown_" ++ Nat.repr idx ∧
    (f.geometry = none →
      encodeRow fmt numStr propStr idx f =
        Except.ok (escapeS (encodeName numStr idx f.id) ++ "," ++
          escapeS (propStr f.properties) ++ "," ++ "NULL" ++ "\n")) := by
  refine ⟨rfl, rfl, rfl, fun hg => ?_⟩
  simp [encodeRow, hg, geomField, Except.map, escapeS_NULL]

/-- C5 (witness): a feature without id at zero-based position 3 and
without geometry: name `unknown_3`, geometry field the bare `NULL`. -/
theorem c5_witness :
    encodeName Int.repr 3 (none : Option (FeatId Int)) = "unknown_" ++ Nat.repr 3 ∧
    encodeRow Nat.repr Int.repr (fun t : String => t) 3
      (Feature.mk none "x" (none : Option (GeoValue Nat))) =
      Except.ok (escapeS (encodeName Int.repr 3 none) ++ "," ++ escapeS "x" ++ "," ++
        "NULL" ++ "\n") :=
  ⟨(c5_name_resolution_and_null_geometry Nat.repr Int.repr (fun t : String => t) 3
      (Feature.mk none "x" none) "s" 0).2.2.1,
   (c5_name_resolution_and_null_geometry Nat.repr Int.repr (fun t : String => t) 3
      (Feature.mk none "x" none) "s" 0).2.2.2 rfl⟩

/-- C6 (counterexample): the table created by `create_geo_table` has
exactly the four columns id, name, data, created_at — none of them a
spatial geometry column — refuting the claimed five-column schema
with a spatial geometry column. -/
theorem c6_counterexample :
    create_geo_table_columns.map ColumnSpec.colName = ["id", "name", "data", "created_at"] ∧
    create_geo_table_columns.all
      (fun c => c.colName != "geometry" && c.sqlType != "GEOMETRY") = true :=
  ⟨rfl, by decide⟩

/-- C6 (amended): the schema manager creates the destination table
with exactly {UUID surrogate identity, unique name, JSONB data,
creation timestamp} plus a GIN index over the data column, and the
creation step precedes every per-file insert in the batch. -/
theorem c6_amended_schema (tableName : String) (files : List GeoJSONFileL) :
    create_geo_table_columns.map ColumnSpec.colName = ["id", "name", "data", "created_at"] ∧
    create_geo_table_index = ("GIN", "data") ∧
    insert_geojson_trace tableName files =
      BatchOp.createTable tableName create_geo_table_columns "GIN" "data" ::
        ((files.map (insertJobTrace tableName)).flatten.map BatchOp.jobOp) :=
  ⟨rfl, rfl, rfl⟩

/-- C7: when the destination table already exists, the plain CREATE
TABLE issued by `create_geo_table` fails with an already-exists error
and `insert_geojson` propagates it with the `?` operator — the error
is surfaced and aborts the batch, it is not swallowed as the claim
(and the function's own doc comment) states. -/
theorem c7_already_exists_surfaces (existing : List String) (tableName : String)
    (h : existing.contains tableName = true) :
    insert_geojson_setup existing tableName =
      Except.error (DdlError.alreadyExists tableName) := by
  have hm : tableName ∈ existing := by simpa using h
  simp [insert_geojson_setup, create_geo_table, hm]

/-- C7 (witness): re-running ingestion against an existing table
surfaces the already-exists error. -/
theorem c7_witness :
    insert_geojson_setup ["geo_data"] "geo_data" =
      Except.error (DdlError.alreadyExists "geo_data") :=
  c7_already_exists_surfaces ["geo_data"] "geo_data" (by decide)

/-- C8 (counterexample): a LineString with zero coordinates is encoded
as `LINESTRING()` — an empty WKT body returned as success — refuting
the claim that empty coordinate sequences yield a validation
error. -/
theorem c8_counterexample :
    geometry_to_wkt Nat.repr (GeoValue.lineString ([] : List (List Nat))) =
      Except.ok "LINESTRING()" :=
  rfl

/-- C8 (amended): empty coordinate sequences are not validated:
sequence-level emptiness encodes as an empty WKT body
(`MULTIPOINT()`, `LINESTRING()`, `MULTILINESTRING()`, an empty ring
`POLYGON(())`, `MULTIPOLYGON()`), while a Point whose coordinate
vector is empty hits the unchecked indexing and panics. -/
theorem c8_amended_empty_sequences_encoded {α : Type} (fmt : α → String) :
    geometry_to_wkt fmt (GeoValue.multiPoint ([] : List (List α))) =
      Except.ok "MULTIPOINT()" ∧
    geometry_to_wkt fmt (GeoValue.lineString ([] : List (List α))) =
      Except.ok "LINESTRING()" ∧
    geometry_to_wkt fmt (GeoValue.multiLineString ([] : List (List (List α)))) =
      Except.ok "MULTILINESTRING()" ∧
    geometry_to_wkt fmt (GeoValue.polygon ([[]] : List (List (List α)))) =
      Except.ok "POLYGON(())" ∧
    geometry_to_wkt fmt (GeoValue.multiPolygon ([] : List (List (List (List α))))) =
      Except.ok "MULTIPOLYGON()" ∧
    geometry_to_wkt fmt (GeoValue.point ([] : List α)) =
      Except.error WktErr.panicOutOfBounds :=
  ⟨rfl, rfl, rfl, rfl, rfl, rfl⟩

/-- C9 (counterexample): row encoding of a feature whose geometry
encoding fails does not return an EncodeError result — it hits the
`.expect` and panics (modelled as the `RowPanic` outcome), refuting
the claim that encoding failures are returned as a
`Result<Record, EncodeError>` value. -/
theorem c9_counterexample :
    encodeRow Nat.repr Int.repr (fun t : String => t) 0
      (Feature.mk none "x"
        (some (GeoValue.geometryCollection ([] : List (GeoValue Nat))))) =
      Except.error (RowPanic.expectFail "❌ Failed to convert geometry to WKT"
        "Unsupported geometry type") :=
  rfl

/-- C9 (amended): row encoding is inlined in `process_file` and on a
geometry-encoding failure it panics through
`.expect("❌ Failed to convert geometry to WKT")` — aborting rather
than returning an error value — with a fixed message independent of
the owning feature's name and index. -/
theorem c9_amended_panics_on_geometry_failure {α ν π : Type}
    (fmt : α → String) (numStr : ν → String) (propStr : π → String)
    (idx : Nat) (f : Feature α ν π) (gs : List (GeoValue α))
    (h : f.geometry = some (GeoValue.geometryCollection gs)) :
    encodeRow fmt numStr propStr idx f =
      Except.error (RowPanic.expectFail "❌ Failed to convert geometry to WKT"
        "Unsupported geometry type") := by
  simp [encodeRow, h, geomField, geometry_to_wkt, Except.map]

/-- C9 (witness): a concrete feature with unsupported geometry at
index 7. -/
theorem c9_witness :
    encodeRow Nat.repr Int.repr (fun t : String => t) 7
      (Feature.mk (some (FeatId.str "a")) "p"
        (some (GeoValue.geometryCollection ([] : List (GeoValue Nat))))) =
      Except.error (RowPanic.expectFail "❌ Failed to convert geometry to WKT"
        "Unsupported geometry type") :=
  c9_amended_panics_on_geometry_failure Nat.repr Int.repr (fun t : String => t) 7
    (Feature.mk (some (FeatId.str "a")) "p"
      (some (GeoValue.geometryCollection []))) [] rfl

/-- C10: the encoder indexes the first two components of every
position without a bounds check: on any supported geometry it is
total exactly when every position has at least two components, and on
any supported geometry containing a shorter position it panics (the
out-of-bounds panic) instead of returning an error. -/
theorem c10_panics_without_two_components {α : Type} (fmt : α → String) (g : GeoValue α)
    (hs : isSupported g = true) :
    (ValidG g → ∃ s, geometry_to_wkt fmt g = Except.ok s) ∧
    (¬ ValidG g → geometry_to_wkt fmt g = Except.error WktErr.panicOutOfBounds) :=
  ⟨fun hv => ⟨specWkt fmt g, wkt_ok_of_valid fmt g hs hv⟩,
   fun hnv => wkt_panic_of_invalid fmt g hs hnv⟩

/-- C10 (witness): a Point with a single component panics. -/
theorem c10_witness :
    geometry_to_wkt Nat.repr (GeoValue.point [1]) =
      Except.error WktErr.panicOutOfBounds :=
  (c10_panics_without_two_components Nat.repr (GeoValue.point [1]) (by decide)).2
    (by decide)
